import Mathlib

/-!
Verification development for the Capture Curator dashboard.

The repository is a browser dashboard that ranks a fixed in-memory photo
catalog by weighted criteria (technical quality, storytelling, client
alignment) and a client preference profile, and lets the user curate a
shortlist.  This file gives a shallow embedding of the data model, the
Ranking Engine and the Presentation Shell state logic, and proves the
specified properties about them.

Numeric values are modelled as rationals.  The Presentation Shell logic
(weight normalization, filtering, top-candidate slicing, hero selection,
selection toggling, shortlist summary) is translated directly from
`src/dashboard/src/components/dashboard-client.tsx`.  The Ranking Engine
itself (the `scoring` module) is not part of the provided sources, so it
is modelled from the specification, as documented on each definition.
-/

namespace CaptureCurator

/-! ### Data model (spec section 3) -/

/-- Metrics bundle: three scalar scores per photo. -/
structure PhotoMetrics where
  sharpness : ℚ
  emotion : ℚ
  clientRelevance : ℚ
  deriving DecidableEq

/-- A photo record, as described in the data model and used by
`dashboard-client.tsx` and `photo-card` (id, title, urls, shot type, mood,
location, tags, client notes, face count, capture timestamp, metrics). -/
structure Photo where
  id : String
  title : String
  url : String
  thumbnailUrl : String
  shotType : String
  mood : String
  location : String
  tags : List String
  clientNotes : List String
  faces : Nat
  capturedAt : String
  metrics : PhotoMetrics
  deriving DecidableEq

/-- Relative importance of the three scoring criteria. -/
structure ScoringWeights where
  technical : ℚ
  storytelling : ℚ
  clientAlignment : ℚ
  deriving DecidableEq

/-- Client preference profile. -/
structure ClientProfile where
  preferredMoods : List String
  requiredShots : List String
  highlightTags : List String
  minimumFaces : Nat
  deriving DecidableEq

/-- Output pairing of a photo with its computed score. -/
structure RankedEntry where
  photo : Photo
  score : ℚ
  deriving DecidableEq

/-! ### Ranking Engine (spec section 4.1)

The scoring module referenced as `@/lib/scoring` is not among the provided
sources (only its callers are), so the engine below is modelled from the
specification's algorithm, including its example constants. -/

/-- Clamp a rational to the interval [0,1]. -/
def clamp01 (x : ℚ) : ℚ := max 0 (min 1 x)

/-- Modelled from the spec: fixed mood bonus added when the photo's mood is
one of the profile's preferred moods (the spec's example value +0.15). -/
def moodBonus : ℚ := 15 / 100

/-- Modelled from the spec: damping factor applied when required shot types
are declared and the photo's shot type is not among them (the spec's example
value 0.6). -/
def shotTypePenalty : ℚ := 6 / 10

/-- Modelled from the spec: scale of the tag-overlap bonus, which is
proportional to the fraction of highlight tags present on the photo; the
scale itself is unspecified, taken here as 0.15 in line with the other
bonus. -/
def tagBonusScale : ℚ := 15 / 100

/-- Modelled from the spec: damping factor applied when the photo's face
count is below the profile's minimum (unspecified in the spec, taken to be
the same 0.6 damping used for the shot-type requirement). -/
def facesPenalty : ℚ := 6 / 10

/-- Modelled from the spec: fraction of the profile's highlight tags present
in the photo's tags; an empty highlight-tag set contributes no bonus. -/
def tagOverlap (profile : ClientProfile) (photo : Photo) : ℚ :=
  if profile.highlightTags = [] then 0
  else
    (profile.highlightTags.countP (fun t => decide (t ∈ photo.tags)) : ℚ) /
      (profile.highlightTags.length : ℚ)

/-- Modelled from the spec: client-relevance base plus the mood bonus when
the photo's mood is preferred. -/
def moodAdjusted (profile : ClientProfile) (photo : Photo) : ℚ :=
  if photo.mood ∈ profile.preferredMoods then
    photo.metrics.clientRelevance + moodBonus
  else photo.metrics.clientRelevance

/-- Modelled from the spec: shot-type requirement applied as a multiplicative
penalty, never as exclusion. -/
def shotAdjusted (profile : ClientProfile) (photo : Photo) : ℚ :=
  if profile.requiredShots ≠ [] ∧ photo.shotType ∉ profile.requiredShots then
    moodAdjusted profile photo * shotTypePenalty
  else moodAdjusted profile photo

/-- Modelled from the spec: tag-overlap bonus added after the shot-type
adjustment. -/
def tagAdjusted (profile : ClientProfile) (photo : Photo) : ℚ :=
  shotAdjusted profile photo + tagBonusScale * tagOverlap profile photo

/-- Modelled from the spec: minimum-face requirement applied as a
multiplicative penalty, never as exclusion. -/
def facesAdjusted (profile : ClientProfile) (photo : Photo) : ℚ :=
  if photo.faces < profile.minimumFaces then
    tagAdjusted profile photo * facesPenalty
  else tagAdjusted profile photo

/-- Modelled from the spec: the client-alignment composite sub-score, clamped
to [0,1] after all bonuses and penalties. -/
def compositeSubScore (profile : ClientProfile) (photo : Photo) : ℚ :=
  clamp01 (facesAdjusted profile photo)

/-- Modelled from the spec: final score of a photo, the sum of the three
weighted components clamped to [0,1]. -/
def scorePhoto (weights : ScoringWeights) (profile : ClientProfile)
    (photo : Photo) : ℚ :=
  clamp01 (weights.technical * photo.metrics.sharpness +
    weights.storytelling * photo.metrics.emotion +
    weights.clientAlignment * compositeSubScore profile photo)

/-- Pair a photo with its computed score. -/
def decorate (weights : ScoringWeights) (profile : ClientProfile)
    (photo : Photo) : RankedEntry :=
  ⟨photo, scorePhoto weights profile photo⟩

/-- Stable descending insertion: the new entry is placed after every existing
entry with a strictly greater score and before every entry with an equal or
smaller score. -/
def insertRanked (e : RankedEntry) : List RankedEntry → List RankedEntry
  | [] => [e]
  | h :: t => if e.score < h.score then h :: insertRanked e t else e :: h :: t

/-- Stable insertion sort, descending by score. -/
def sortRanked : List RankedEntry → List RankedEntry
  | [] => []
  | h :: t => insertRanked h (sortRanked t)

/-- Modelled from the spec: the Ranking Engine.  Scores every catalog photo
and returns the entries sorted descending by score with a stable sort (ties
keep original catalog order). -/
def buildPhotoRankings (photos : List Photo) (weights : ScoringWeights)
    (profile : ClientProfile) : List RankedEntry :=
  sortRanked (photos.map (decorate weights profile))

/-! ### Presentation Shell (translated from `dashboard-client.tsx`) -/

/-- Caller-side weight normalization (`normalizedWeights` memo, lines 48-55):
each raw component divided by the total of the three. -/
def normalizedWeights (w : ScoringWeights) : ScoringWeights :=
  let total := w.technical + w.storytelling + w.clientAlignment
  { technical := w.technical / total
    storytelling := w.storytelling / total
    clientAlignment := w.clientAlignment / total }

/-- Transient UI state consumed by the `filtered` memo. -/
structure FilterState where
  activeShotTypes : List String
  activeMoods : List String
  activeLocations : List String
  tagQuery : String
  showSelectedOnly : Bool
  selectedIds : Finset String
  deriving DecidableEq

/-- Character-list version of "the second list starts with the first". -/
def startsWithChars : List Char → List Char → Bool
  | _, [] => true
  | [], _ :: _ => false
  | c :: cs, d :: ds => decide (c = d) && startsWithChars cs ds

/-- Character-list version of substring containment. -/
def containsChars (needle : List Char) : List Char → Bool
  | [] => needle.isEmpty
  | c :: cs => startsWithChars (c :: cs) needle || containsChars needle cs

/-- JavaScript `hay.includes(q)`: substring containment on the characters. -/
def strIncludes (hay q : String) : Bool := containsChars q.data hay.data

/-- JavaScript `toLowerCase`, modelled character by character. -/
def lowercase (s : String) : String := String.mk (s.data.map Char.toLower)

/-- JavaScript `trim`: whitespace stripped from both ends. -/
def trimmed (s : String) : String :=
  String.mk
    (((s.data.dropWhile Char.isWhitespace).reverse.dropWhile
      Char.isWhitespace).reverse)

/-- The predicate of the `filtered` memo (lines 62-91): selection gate, chip
gates for shot type, mood and location, then the tag/notes/title substring
search on the trimmed lowercased query. -/
def matchesFilters (fs : FilterState) (photo : Photo) : Bool :=
  let query := lowercase (trimmed fs.tagQuery)
  if fs.showSelectedOnly && !(decide (photo.id ∈ fs.selectedIds)) then false
  else if !fs.activeShotTypes.isEmpty &&
      !(decide (photo.shotType ∈ fs.activeShotTypes)) then false
  else if !fs.activeMoods.isEmpty &&
      !(decide (photo.mood ∈ fs.activeMoods)) then false
  else if !fs.activeLocations.isEmpty &&
      !(decide (photo.location ∈ fs.activeLocations)) then false
  else if !(query = "") then
    photo.tags.any (fun t => strIncludes (lowercase t) query) ||
    photo.clientNotes.any (fun n => strIncludes (lowercase n) query) ||
    strIncludes (lowercase photo.title) query
  else true

/-- The `filtered` memo: the ranked list restricted by the filter state. -/
def filteredRankings (ranked : List RankedEntry) (fs : FilterState) :
    List RankedEntry :=
  ranked.filter (fun e => matchesFilters fs e.photo)

/-- The `topCandidates` slice (line 92): first twelve filtered entries. -/
def topCandidates (ranked : List RankedEntry) (fs : FilterState) :
    List RankedEntry :=
  (filteredRankings ranked fs).take 12

/-- The `hero` entry (line 94): first top candidate, when one exists. -/
def hero (ranked : List RankedEntry) (fs : FilterState) :
    Option RankedEntry :=
  (topCandidates ranked fs).head?

/-- The `toggleSelection` handler (lines 101-111): flip membership of one id
in the selection set. -/
def toggleSelection (selected : Finset String) (pid : String) :
    Finset String :=
  if pid ∈ selected then selected.erase pid else insert pid selected

/-- Keys of the three weight sliders. -/
inductive WeightKey
  | technical
  | storytelling
  | clientAlignment
  deriving DecidableEq

/-- Keys of the three list-valued profile fields. -/
inductive ProfileKey
  | preferredMoods
  | requiredShots
  | highlightTags
  deriving DecidableEq

/-- Update one weight component. -/
def setWeight (w : ScoringWeights) : WeightKey → ℚ → ScoringWeights
  | .technical, v => { w with technical := v }
  | .storytelling, v => { w with storytelling := v }
  | .clientAlignment, v => { w with clientAlignment := v }

/-- Set-semantics toggle used by `toggleProfileField`: remove the value when
present, append it otherwise. -/
def toggleValue (l : List String) (v : String) : List String :=
  if v ∈ l then l.erase v else l ++ [v]

/-- Toggle a value of one list-valued profile field. -/
def toggleProfileList (pr : ClientProfile) : ProfileKey → String →
    ClientProfile
  | .preferredMoods, v => { pr with preferredMoods := toggleValue pr.preferredMoods v }
  | .requiredShots, v => { pr with requiredShots := toggleValue pr.requiredShots v }
  | .highlightTags, v => { pr with highlightTags := toggleValue pr.highlightTags v }

/-- The filter-chip toggle pattern: filter the value out when present,
append it otherwise. -/
def toggleFilterValue (l : List String) (v : String) : List String :=
  if v ∈ l then l.filter (fun item => decide (item ≠ v)) else l ++ [v]

/-- The whole transient state held by `DashboardClient`. -/
structure DashboardState where
  weights : ScoringWeights
  profile : ClientProfile
  activeShotTypes : List String
  activeMoods : List String
  activeLocations : List String
  tagQuery : String
  showSelectedOnly : Bool
  selectedIds : Finset String
  deriving DecidableEq

/-- The `adjustWeight` handler (lines 113-118). -/
def adjustWeight (st : DashboardState) (key : WeightKey) (value : ℚ) :
    DashboardState :=
  { st with weights := setWeight st.weights key value }

/-- The `toggleProfileField` handler (lines 120-135) for the list-valued
profile fields. -/
def toggleProfileField (st : DashboardState) (key : ProfileKey)
    (value : String) : DashboardState :=
  { st with profile := toggleProfileList st.profile key value }

/-- The minimum-faces selector (lines 290-295). -/
def setMinimumFaces (st : DashboardState) (n : Nat) : DashboardState :=
  { st with profile := { st.profile with minimumFaces := n } }

/-- The shot-type filter chip handler (lines 328-334). -/
def toggleShotTypeFilter (st : DashboardState) (v : String) : DashboardState :=
  { st with activeShotTypes := toggleFilterValue st.activeShotTypes v }

/-- The mood filter chip handler (lines 358-362). -/
def toggleMoodFilter (st : DashboardState) (v : String) : DashboardState :=
  { st with activeMoods := toggleFilterValue st.activeMoods v }

/-- The location filter chip handler (lines 386-392). -/
def toggleLocationFilter (st : DashboardState) (v : String) : DashboardState :=
  { st with activeLocations := toggleFilterValue st.activeLocations v }

/-- The search input handler (line 411). -/
def setTagQuery (st : DashboardState) (q : String) : DashboardState :=
  { st with tagQuery := q }

/-- The show-shortlist-only checkbox handler (line 421). -/
def setShowSelectedOnly (st : DashboardState) (b : Bool) : DashboardState :=
  { st with showSelectedOnly := b }

/-- Entry lookup used by the Shortlist Summary (lines 597 and 615). -/
def findEntry (ranked : List RankedEntry) (pid : String) :
    Option RankedEntry :=
  ranked.find? (fun e => decide (e.photo.id = pid))

/-- Score of a photo as looked up in the ranked list, with a fallback
default when the photo has no entry. -/
def scoreWithDefault (ranked : List RankedEntry) (d : ℚ) (photo : Photo) :
    ℚ :=
  ((findEntry ranked photo.id).map RankedEntry.score).getD d

/-- The `shortlist` memo (lines 96-99): catalog photos whose id is
selected. -/
def shortlistPhotos (photos : List Photo) (selected : Finset String) :
    List Photo :=
  photos.filter (fun p => decide (p.id ∈ selected))

/-- The average-alignment computation of the Shortlist Summary (lines
592-606): mean over the shortlist of the ranked score, with the fallback
default 0, and 0 for an empty shortlist. -/
def averageAlignment (ranked : List RankedEntry) (shortlist : List Photo) :
    ℚ :=
  if shortlist.isEmpty then 0
  else
    (shortlist.foldl (fun acc p => acc + scoreWithDefault ranked 0 p) 0) /
      (shortlist.length : ℚ)

/-- The score shown on a shortlist card (lines 615-616), with the fallback
default 1/2. -/
def shortlistCardScore (ranked : List RankedEntry) (photo : Photo) : ℚ :=
  scoreWithDefault ranked (1 / 2) photo

/-- Mean client relevance of a catalog, used to state the monotonicity
property of spec section 8. -/
def catalogAverage (photos : List Photo) : ℚ :=
  (photos.map (fun p => p.metrics.clientRelevance)).sum /
    (photos.length : ℚ)

/-! ### Concrete fixtures used to instantiate the properties -/

/-- A neutral photo record from which concrete instances are built. -/
def basePhoto : Photo :=
  { id := "p0"
    title := "Shore frame"
    url := "u0"
    thumbnailUrl := "v0"
    shotType := "Wide"
    mood := "Calm"
    location := "Shore"
    tags := []
    clientNotes := []
    faces := 2
    capturedAt := "2024-05-18T10:00:00Z"
    metrics := { sharpness := 1/2, emotion := 1/2, clientRelevance := 1/2 } }

/-- A profile with no preferences at all. -/
def emptyProfile : ClientProfile :=
  { preferredMoods := []
    requiredShots := []
    highlightTags := []
    minimumFaces := 0 }

/-- First photo of the spec's worked example: sharpness 0.9, emotion 0.2. -/
def examplePhotoA : Photo :=
  { basePhoto with
    id := "a"
    metrics := { sharpness := 9/10, emotion := 2/10, clientRelevance := 1/2 } }

/-- Second photo of the spec's worked example: sharpness 0.3, emotion 0.9. -/
def examplePhotoB : Photo :=
  { basePhoto with
    id := "b"
    metrics := { sharpness := 3/10, emotion := 9/10, clientRelevance := 1/2 } }

/-- Third photo of the spec's worked example: sharpness 0.6, emotion 0.5. -/
def examplePhotoC : Photo :=
  { basePhoto with
    id := "c"
    metrics := { sharpness := 6/10, emotion := 5/10, clientRelevance := 1/2 } }

/-- The dashboard's default raw slider values (40 / 35 / 25). -/
def defaultRawWeights : ScoringWeights :=
  { technical := 40, storytelling := 35, clientAlignment := 25 }

/-- The default raw weights after normalization: 0.4 / 0.35 / 0.25. -/
def defaultNormalizedWeights : ScoringWeights :=
  { technical := 2/5, storytelling := 7/20, clientAlignment := 1/4 }

/-- A photo whose client relevance is zero, meeting a one-face minimum. -/
def okFacesPhoto : Photo :=
  { basePhoto with
    id := "p0"
    faces := 1
    metrics := { sharpness := 1/2, emotion := 1/2, clientRelevance := 0 } }

/-- The same photo with no faces: identical in every attribute except the
face count, which is below the one-face minimum. -/
def lowFacesPhoto : Photo := { okFacesPhoto with faces := 0 }

/-- A profile whose only constraint is a minimum of one face. -/
def minFacesProfile : ClientProfile := { emptyProfile with minimumFaces := 1 }

/-- A photo with high client relevance and perfect technical metrics. -/
def highRelPhoto : Photo :=
  { basePhoto with
    id := "hi"
    metrics := { sharpness := 1, emotion := 1, clientRelevance := 9/10 } }

/-- A photo with low client relevance and zero technical metrics. -/
def lowRelPhoto : Photo :=
  { basePhoto with
    id := "lo"
    metrics := { sharpness := 0, emotion := 0, clientRelevance := 1/10 } }

/-- A photo carrying only a client-alignment signal. -/
def alignedPhoto : Photo :=
  { basePhoto with
    id := "al"
    metrics := { sharpness := 0, emotion := 0, clientRelevance := 9/10 } }

/-- Normalized weights before raising the client-alignment weight. -/
def wBefore : ScoringWeights :=
  { technical := 3/8, storytelling := 3/8, clientAlignment := 1/4 }

/-- Normalized weights after raising the client-alignment weight to 1/2
while keeping technical and storytelling proportional. -/
def wAfter : ScoringWeights :=
  { technical := 1/4, storytelling := 1/4, clientAlignment := 1/2 }

/-- A dashboard state with default weights and no transient activity. -/
def sampleState : DashboardState :=
  { weights := defaultRawWeights
    profile := emptyProfile
    activeShotTypes := []
    activeMoods := []
    activeLocations := []
    tagQuery := ""
    showSelectedOnly := false
    selectedIds := ∅ }

/-! ### Helper lemmas -/

theorem clamp01_nonneg (x : ℚ) : 0 ≤ clamp01 x := le_max_left 0 _

theorem clamp01_le_one (x : ℚ) : clamp01 x ≤ 1 :=
  max_le (by norm_num) (min_le_left 1 x)

theorem clamp01_eq_self {x : ℚ} (h0 : 0 ≤ x) (h1 : x ≤ 1) : clamp01 x = x := by
  unfold clamp01
  rw [min_eq_right h1, max_eq_right h0]

theorem clamp01_lt_clamp01 {a b : ℚ} (h0 : 0 ≤ a) (hab : a < b) (h1 : a < 1) :
    clamp01 a < clamp01 b := by
  have ha : clamp01 a = a := clamp01_eq_self h0 (le_of_lt h1)
  calc clamp01 a = a := ha
    _ < min 1 b := lt_min h1 hab
    _ ≤ clamp01 b := le_max_right _ _

theorem pos_of_clamp01_pos {x : ℚ} (h : 0 < clamp01 x) : 0 < x := by
  by_contra hx
  push_neg at hx
  have hm : min 1 x ≤ 0 := le_trans (min_le_right 1 x) hx
  exact absurd h (not_lt.mpr (max_le le_rfl hm))

theorem tagOverlap_nonneg (pr : ClientProfile) (p : Photo) :
    0 ≤ tagOverlap pr p := by
  unfold tagOverlap
  split
  · exact le_rfl
  · positivity

theorem tagOverlap_le_one (pr : ClientProfile) (p : Photo) :
    tagOverlap pr p ≤ 1 := by
  unfold tagOverlap
  split
  · norm_num
  · next h =>
    have hne : pr.highlightTags.length ≠ 0 := by
      simpa [List.length_eq_zero] using h
    have hlen : 0 < (pr.highlightTags.length : ℚ) := by
      exact_mod_cast Nat.pos_of_ne_zero hne
    rw [div_le_one hlen]
    exact_mod_cast List.countP_le_length _

theorem moodAdjusted_nonneg (pr : ClientProfile) {p : Photo}
    (h0 : 0 ≤ p.metrics.clientRelevance) : 0 ≤ moodAdjusted pr p := by
  unfold moodAdjusted moodBonus
  split <;> linarith

theorem moodAdjusted_le (pr : ClientProfile) {p : Photo}
    (h1 : p.metrics.clientRelevance ≤ 1) : moodAdjusted pr p ≤ 23 / 20 := by
  unfold moodAdjusted moodBonus
  split <;> linarith

theorem shotAdjusted_nonneg (pr : ClientProfile) {p : Photo}
    (h0 : 0 ≤ p.metrics.clientRelevance) : 0 ≤ shotAdjusted pr p := by
  unfold shotAdjusted shotTypePenalty
  have := moodAdjusted_nonneg pr (p := p) h0
  split <;> nlinarith

theorem shotAdjusted_le (pr : ClientProfile) {p : Photo}
    (h0 : 0 ≤ p.metrics.clientRelevance)
    (h1 : p.metrics.clientRelevance ≤ 1) : shotAdjusted pr p ≤ 23 / 20 := by
  unfold shotAdjusted shotTypePenalty
  have hle := moodAdjusted_le pr (p := p) h1
  have hge := moodAdjusted_nonneg pr (p := p) h0
  split <;> nlinarith

theorem tagAdjusted_nonneg (pr : ClientProfile) {p : Photo}
    (h0 : 0 ≤ p.metrics.clientRelevance) : 0 ≤ tagAdjusted pr p := by
  unfold tagAdjusted tagBonusScale
  have ht := tagOverlap_nonneg pr p
  have hs := shotAdjusted_nonneg pr (p := p) h0
  nlinarith

theorem tagAdjusted_le (pr : ClientProfile) {p : Photo}
    (h0 : 0 ≤ p.metrics.clientRelevance)
    (h1 : p.metrics.clientRelevance ≤ 1) : tagAdjusted pr p ≤ 13 / 10 := by
  unfold tagAdjusted tagBonusScale
  have ht := tagOverlap_le_one pr p
  have hs := shotAdjusted_le pr (p := p) h0 h1
  nlinarith

theorem compositeSubScore_nonneg (pr : ClientProfile) (p : Photo) :
    0 ≤ compositeSubScore pr p := clamp01_nonneg _

theorem compositeSubScore_le_one (pr : ClientProfile) (p : Photo) :
    compositeSubScore pr p ≤ 1 := clamp01_le_one _

theorem scorePhoto_unclamped {w : ScoringWeights} {pr : ClientProfile}
    {p : Photo}
    (hwt : 0 ≤ w.technical) (hws : 0 ≤ w.storytelling)
    (hwc : 0 ≤ w.clientAlignment)
    (hsum : w.technical + w.storytelling + w.clientAlignment = 1)
    (hs0 : 0 ≤ p.metrics.sharpness) (hs1 : p.metrics.sharpness ≤ 1)
    (he0 : 0 ≤ p.metrics.emotion) (he1 : p.metrics.emotion ≤ 1) :
    scorePhoto w pr p =
      w.technical * p.metrics.sharpness +
        w.storytelling * p.metrics.emotion +
        w.clientAlignment * compositeSubScore pr p := by
  have hc0 := compositeSubScore_nonneg pr p
  have hc1 := compositeSubScore_le_one pr p
  refine clamp01_eq_self ?_ ?_
  · have t1 := mul_nonneg hwt hs0
    have t2 := mul_nonneg hws he0
    have t3 := mul_nonneg hwc hc0
    linarith
  · have t1 : w.technical * p.metrics.sharpness ≤ w.technical :=
      mul_le_of_le_one_right hwt hs1
    have t2 : w.storytelling * p.metrics.emotion ≤ w.storytelling :=
      mul_le_of_le_one_right hws he1
    have t3 : w.clientAlignment * compositeSubScore pr p ≤ w.clientAlignment :=
      mul_le_of_le_one_right hwc hc1
    linarith

theorem insertRanked_perm (e : RankedEntry) (l : List RankedEntry) :
    (insertRanked e l).Perm (e :: l) := by
  induction l with
  | nil => exact List.Perm.refl _
  | cons h t ih =>
    rw [insertRanked]
    split
    · exact (ih.cons h).trans (List.Perm.swap e h t)
    · exact List.Perm.refl _

theorem sortRanked_perm (l : List RankedEntry) : (sortRanked l).Perm l := by
  induction l with
  | nil => exact List.Perm.refl _
  | cons h t ih => exact (insertRanked_perm h (sortRanked t)).trans (ih.cons h)

theorem insertRanked_pairwise {e : RankedEntry} {l : List RankedEntry}
    (hl : l.Pairwise (fun a b => b.score ≤ a.score)) :
    (insertRanked e l).Pairwise (fun a b => b.score ≤ a.score) := by
  induction l with
  | nil => simp [insertRanked]
  | cons hd t ih =>
    rcases List.pairwise_cons.mp hl with ⟨hhd, ht⟩
    rw [insertRanked]
    split
    · next hlt =>
      refine List.pairwise_cons.mpr ⟨?_, ih ht⟩
      intro x hx
      have hx2 : x ∈ e :: t := (insertRanked_perm e t).subset hx
      rcases List.mem_cons.mp hx2 with hxe | hxt
      · exact hxe ▸ le_of_lt hlt
      · exact hhd x hxt
    · next hge =>
      push_neg at hge
      refine List.pairwise_cons.mpr ⟨?_, hl⟩
      intro x hx
      rcases List.mem_cons.mp hx with hxe | hxt
      · exact hxe ▸ hge
      · exact le_trans (hhd x hxt) hge

theorem sortRanked_pairwise (l : List RankedEntry) :
    (sortRanked l).Pairwise (fun a b => b.score ≤ a.score) := by
  induction l with
  | nil => simp [sortRanked]
  | cons h t ih => exact insertRanked_pairwise ih

theorem filter_insertRanked (e : RankedEntry) (l : List RankedEntry)
    (s : ℚ) :
    (insertRanked e l).filter (fun x => decide (x.score = s)) =
      if e.score = s then
        e :: l.filter (fun x => decide (x.score = s))
      else l.filter (fun x => decide (x.score = s)) := by
  induction l with
  | nil =>
    rw [insertRanked]
    by_cases hes : e.score = s <;> simp [hes]
  | cons hd t ih =>
    rw [insertRanked]
    split
    · next hlt =>
      rw [List.filter_cons, List.filter_cons, ih]
      by_cases hes : e.score = s
      · have hhd : ¬hd.score = s := by
          rw [← hes]
          exact ne_of_gt hlt
        simp [hes, hhd]
      · simp [hes]
    · next hge =>
      rw [List.filter_cons]
      by_cases hes : e.score = s <;> simp [hes]

theorem filter_sortRanked (l : List RankedEntry) (s : ℚ) :
    (sortRanked l).filter (fun x => decide (x.score = s)) =
      l.filter (fun x => decide (x.score = s)) := by
  induction l with
  | nil => rfl
  | cons hd t ih =>
    rw [sortRanked, filter_insertRanked, List.filter_cons]
    by_cases hhd : hd.score = s <;> simp [hhd, ih]

theorem foldl_add_eq_sum (f : Photo → ℚ) (l : List Photo) (a : ℚ) :
    l.foldl (fun acc p => acc + f p) a = a + (l.map f).sum := by
  induction l generalizing a with
  | nil => simp
  | cons hd t ih =>
    rw [List.foldl_cons, ih, List.map_cons, List.sum_cons]
    ring

/-! ### Claim theorems -/

/-- C1: for every catalog, weights and profile, the ranking output is sorted
in descending order of score (for any two entries, the earlier one's score is
greater than or equal to the later one's, in particular for adjacent ones),
and the sort is stable: for each score value, the entries holding that score
appear in their original catalog order. -/
theorem buildPhotoRankings_sorted_stable (photos : List Photo)
    (w : ScoringWeights) (pr : ClientProfile) :
    (buildPhotoRankings photos w pr).Pairwise
      (fun a b => b.score ≤ a.score) ∧
    ∀ s : ℚ,
      (buildPhotoRankings photos w pr).filter
          (fun e => decide (e.score = s)) =
        (photos.map (decorate w pr)).filter (fun e => decide (e.score = s)) := by
  exact ⟨sortRanked_pairwise _, fun s => filter_sortRanked _ s⟩

/-- C2: the ranking output is a permutation of the input catalog, with the
same cardinality and the same photo identities, never dropping or
duplicating an entry (in particular no photo is excluded by a profile
mismatch), and the empty catalog is ranked to the empty sequence. -/
theorem buildPhotoRankings_perm (photos : List Photo) (w : ScoringWeights)
    (pr : ClientProfile) :
    ((buildPhotoRankings photos w pr).map RankedEntry.photo).Perm photos ∧
      (buildPhotoRankings photos w pr).length = photos.length ∧
      buildPhotoRankings [] w pr = [] := by
  have h1 := (sortRanked_perm (photos.map (decorate w pr))).map
    RankedEntry.photo
  have h2 : (photos.map (decorate w pr)).map RankedEntry.photo = photos := by
    rw [List.map_map]
    have hcomp : (RankedEntry.photo ∘ decorate w pr) = fun p => p := rfl
    rw [hcomp, List.map_id']
  rw [h2] at h1
  refine ⟨h1, ?_, rfl⟩
  calc (buildPhotoRankings photos w pr).length
      = (photos.map (decorate w pr)).length :=
        (sortRanked_perm _).length_eq
    _ = photos.length := List.length_map _ _

/-- C3: every entry of the ranking output carries a score in the interval
[0,1]; that score is the weighted sum of the three components clamped to
[0,1], and the client-alignment composite sub-score is itself clamped to
[0,1] after bonuses and penalties. -/
theorem rankedEntry_score_mem_unitInterval (photos : List Photo)
    (w : ScoringWeights) (pr : ClientProfile) (e : RankedEntry)
    (he : e ∈ buildPhotoRankings photos w pr)
    (hwt : 0 ≤ w.technical) (hws : 0 ≤ w.storytelling)
    (hwc : 0 ≤ w.clientAlignment)
    (hsum : w.technical + w.storytelling + w.clientAlignment = 1)
    (hm : ∀ p ∈ photos,
      0 ≤ p.metrics.sharpness ∧ p.metrics.sharpness ≤ 1 ∧
      0 ≤ p.metrics.emotion ∧ p.metrics.emotion ≤ 1 ∧
      0 ≤ p.metrics.clientRelevance ∧ p.metrics.clientRelevance ≤ 1) :
    0 ≤ e.score ∧ e.score ≤ 1 ∧
      e.score = clamp01 (w.technical * e.photo.metrics.sharpness +
        w.storytelling * e.photo.metrics.emotion +
        w.clientAlignment * compositeSubScore pr e.photo) ∧
      0 ≤ compositeSubScore pr e.photo ∧
      compositeSubScore pr e.photo ≤ 1 := by
  have hmem : e ∈ photos.map (decorate w pr) := (sortRanked_perm _).subset he
  rcases List.mem_map.mp hmem with ⟨p, hp, hpe⟩
  subst hpe
  exact ⟨clamp01_nonneg _, clamp01_le_one _, rfl, clamp01_nonneg _,
    clamp01_le_one _⟩

/-- Witness for C3 at a concrete catalog, weights and profile. -/
theorem rankedEntry_score_mem_unitInterval_witness :
    decorate ⟨2/5, 7/20, 1/4⟩ emptyProfile examplePhotoA ∈
        buildPhotoRankings [examplePhotoA] ⟨2/5, 7/20, 1/4⟩ emptyProfile ∧
      0 ≤ (decorate ⟨2/5, 7/20, 1/4⟩ emptyProfile examplePhotoA).score ∧
      (decorate ⟨2/5, 7/20, 1/4⟩ emptyProfile examplePhotoA).score ≤ 1 := by
  have hmem : decorate ⟨2/5, 7/20, 1/4⟩ emptyProfile examplePhotoA ∈
      buildPhotoRankings [examplePhotoA] ⟨2/5, 7/20, 1/4⟩ emptyProfile := by
    simp [buildPhotoRankings, sortRanked, insertRanked]
  have h := rankedEntry_score_mem_unitInterval [examplePhotoA]
    ⟨2/5, 7/20, 1/4⟩ emptyProfile _ hmem (by norm_num) (by norm_num)
    (by norm_num) (by norm_num)
    (by
      intro p hp
      rw [List.mem_singleton] at hp
      subst hp
      norm_num [examplePhotoA, basePhoto])
  exact ⟨hmem, h.1, h.2.1⟩

/-- C4: for raw slider weights each in [15,70] the total is strictly
positive, the caller normalization divides each raw component by that total,
and the three normalized components sum to 1, so no division by zero occurs
and the weights handed to the engine are pre-normalized. -/
theorem normalizedWeights_spec (w : ScoringWeights)
    (ht : 15 ≤ w.technical ∧ w.technical ≤ 70)
    (hs : 15 ≤ w.storytelling ∧ w.storytelling ≤ 70)
    (hc : 15 ≤ w.clientAlignment ∧ w.clientAlignment ≤ 70) :
    0 < w.technical + w.storytelling + w.clientAlignment ∧
      (normalizedWeights w).technical =
        w.technical / (w.technical + w.storytelling + w.clientAlignment) ∧
      (normalizedWeights w).storytelling =
        w.storytelling / (w.technical + w.storytelling + w.clientAlignment) ∧
      (normalizedWeights w).clientAlignment =
        w.clientAlignment /
          (w.technical + w.storytelling + w.clientAlignment) ∧
      (normalizedWeights w).technical + (normalizedWeights w).storytelling +
        (normalizedWeights w).clientAlignment = 1 := by
  have htot : 0 < w.technical + w.storytelling + w.clientAlignment := by
    linarith [ht.1, hs.1, hc.1]
  refine ⟨htot, rfl, rfl, rfl, ?_⟩
  show w.technical / _ + w.storytelling / _ + w.clientAlignment / _ = 1
  rw [div_add_div_same, div_add_div_same, div_self (ne_of_gt htot)]

/-- Witness for C4 at the dashboard's default raw weights 40 / 35 / 25. -/
theorem normalizedWeights_spec_witness :
    (15 ≤ defaultRawWeights.technical ∧ defaultRawWeights.technical ≤ 70) ∧
      (normalizedWeights defaultRawWeights).technical +
        (normalizedWeights defaultRawWeights).storytelling +
        (normalizedWeights defaultRawWeights).clientAlignment = 1 := by
  refine ⟨by norm_num [defaultRawWeights], ?_⟩
  exact (normalizedWeights_spec defaultRawWeights
    (by norm_num [defaultRawWeights]) (by norm_num [defaultRawWeights])
    (by norm_num [defaultRawWeights])).2.2.2.2

/-- C7: on the spec's worked example (three photos with sharpness 0.9 / 0.3
/ 0.6, emotion 0.2 / 0.9 / 0.5, client relevance all 0.5, no bonuses or
penalties, weights technical 0.5, storytelling 0.5, client alignment 0) the
photo with emotion 0.9 scores 0.6 and ranks first, ahead of the photo with
sharpness 0.9 which scores 0.55. -/
theorem example_catalog_ranking :
    buildPhotoRankings [examplePhotoA, examplePhotoB, examplePhotoC]
        ⟨1/2, 1/2, 0⟩ emptyProfile =
      [⟨examplePhotoB, 3/5⟩, ⟨examplePhotoA, 11/20⟩,
        ⟨examplePhotoC, 11/20⟩] := by
  norm_num [buildPhotoRankings, sortRanked, insertRanked, decorate,
    scorePhoto, compositeSubScore, facesAdjusted, tagAdjusted, shotAdjusted,
    moodAdjusted, tagOverlap, clamp01, examplePhotoA, examplePhotoB,
    examplePhotoC, emptyProfile, basePhoto, min_def, max_def, moodBonus,
    tagBonusScale, shotTypePenalty, facesPenalty]

/-- C5 counterexample: two photos identical except for the face count, with
client relevance 0 and no applicable bonuses, and a profile requiring one
face.  The below-minimum photo does stay in the list, but with the default
normalized weights (client-alignment weight 1/4, strictly positive) it
scores exactly the same as the compliant photo instead of strictly lower,
and by stability it even ranks above it when it comes first in the
catalog. -/
theorem minimumFaces_penalty_counterexample :
    lowFacesPhoto.faces < minFacesProfile.minimumFaces ∧
      minFacesProfile.minimumFaces ≤ okFacesPhoto.faces ∧
      scorePhoto defaultNormalizedWeights minFacesProfile lowFacesPhoto =
        scorePhoto defaultNormalizedWeights minFacesProfile okFacesPhoto ∧
      buildPhotoRankings [lowFacesPhoto, okFacesPhoto]
          defaultNormalizedWeights minFacesProfile =
        [⟨lowFacesPhoto, 3/8⟩, ⟨okFacesPhoto, 3/8⟩] := by
  norm_num [buildPhotoRankings, sortRanked, insertRanked, decorate,
    scorePhoto, compositeSubScore, facesAdjusted, tagAdjusted, shotAdjusted,
    moodAdjusted, tagOverlap, clamp01, lowFacesPhoto, okFacesPhoto,
    minFacesProfile, emptyProfile, basePhoto, defaultNormalizedWeights,
    min_def, max_def, moodBonus, tagBonusScale, shotTypePenalty,
    facesPenalty]

/-- C5 (amended): for a profile with a face minimum, a photo below the
minimum never disappears and, provided the client-alignment weight is
strictly positive and the compliant photo's composite sub-score is strictly
positive, it scores strictly lower than the otherwise-identical compliant
photo and ranks strictly below it, even when it precedes it in the
catalog. -/
theorem minimumFaces_soft_penalty (w : ScoringWeights) (pr : ClientProfile)
    (p : Photo) (nLow nOk : ℕ)
    (hlow : nLow < pr.minimumFaces) (hok : pr.minimumFaces ≤ nOk)
    (hwt : 0 ≤ w.technical) (hws : 0 ≤ w.storytelling)
    (hwc : 0 < w.clientAlignment)
    (hsum : w.technical + w.storytelling + w.clientAlignment = 1)
    (hs0 : 0 ≤ p.metrics.sharpness) (hs1 : p.metrics.sharpness ≤ 1)
    (he0 : 0 ≤ p.metrics.emotion) (he1 : p.metrics.emotion ≤ 1)
    (hr0 : 0 ≤ p.metrics.clientRelevance)
    (hr1 : p.metrics.clientRelevance ≤ 1)
    (hpos : 0 < compositeSubScore pr { p with faces := nOk }) :
    scorePhoto w pr { p with faces := nLow } <
        scorePhoto w pr { p with faces := nOk } ∧
      (buildPhotoRankings [{ p with faces := nLow }, { p with faces := nOk }]
          w pr).map RankedEntry.photo =
        [{ p with faces := nOk }, { p with faces := nLow }] := by
  have hta : tagAdjusted pr { p with faces := nLow } =
      tagAdjusted pr { p with faces := nOk } := rfl
  have hfo : facesAdjusted pr { p with faces := nOk } =
      tagAdjusted pr { p with faces := nOk } := by
    rw [facesAdjusted, if_neg (not_lt.mpr hok)]
  have hfl : facesAdjusted pr { p with faces := nLow } =
      tagAdjusted pr { p with faces := nOk } * facesPenalty := by
    rw [facesAdjusted, if_pos hlow, hta]
  have htpos : 0 < tagAdjusted pr { p with faces := nOk } := by
    have := pos_of_clamp01_pos (x := facesAdjusted pr { p with faces := nOk })
      (by rw [← compositeSubScore]; exact hpos)
    rwa [hfo] at this
  have htle : tagAdjusted pr { p with faces := nOk } ≤ 13 / 10 :=
    tagAdjusted_le pr (p := { p with faces := nOk }) hr0 hr1
  have hclt : compositeSubScore pr { p with faces := nLow } <
      compositeSubScore pr { p with faces := nOk } := by
    rw [compositeSubScore, compositeSubScore, hfl, hfo]
    refine clamp01_lt_clamp01 ?_ ?_ ?_
    · have : (0:ℚ) ≤ facesPenalty := by norm_num [facesPenalty]
      exact mul_nonneg (le_of_lt htpos) this
    · have : facesPenalty < 1 := by norm_num [facesPenalty]
      nlinarith
    · have : facesPenalty = 6 / 10 := rfl
      nlinarith
  have hscore : scorePhoto w pr { p with faces := nLow } <
      scorePhoto w pr { p with faces := nOk } := by
    rw [scorePhoto_unclamped (p := { p with faces := nLow }) hwt hws
        (le_of_lt hwc) hsum hs0 hs1 he0 he1,
      scorePhoto_unclamped (p := { p with faces := nOk }) hwt hws
        (le_of_lt hwc) hsum hs0 hs1 he0 he1]
    have := mul_lt_mul_of_pos_left hclt hwc
    simpa using by nlinarith [this]
  refine ⟨hscore, ?_⟩
  have hpair : buildPhotoRankings
      [{ p with faces := nLow }, { p with faces := nOk }] w pr =
      [decorate w pr { p with faces := nOk },
        decorate w pr { p with faces := nLow }] := by
    simp [buildPhotoRankings, sortRanked, insertRanked, decorate, hscore]
  rw [hpair]
  rfl

/-- Witness for the amended C5 at a concrete profile, weights and photo. -/
theorem minimumFaces_soft_penalty_witness :
    0 < compositeSubScore minFacesProfile { alignedPhoto with faces := 1 } ∧
      scorePhoto defaultNormalizedWeights minFacesProfile
          { alignedPhoto with faces := 0 } <
        scorePhoto defaultNormalizedWeights minFacesProfile
          { alignedPhoto with faces := 1 } := by
  have hpos : 0 < compositeSubScore minFacesProfile
      { alignedPhoto with faces := 1 } := by
    norm_num [compositeSubScore, facesAdjusted, tagAdjusted, shotAdjusted,
      moodAdjusted, tagOverlap, clamp01, alignedPhoto, basePhoto,
      minFacesProfile, emptyProfile, min_def, max_def, moodBonus,
      tagBonusScale, shotTypePenalty, facesPenalty]
  refine ⟨hpos, ?_⟩
  exact (minimumFaces_soft_penalty defaultNormalizedWeights minFacesProfile
    alignedPhoto 0 1 (by norm_num [minFacesProfile, emptyProfile])
    (by norm_num [minFacesProfile, emptyProfile])
    (by norm_num [defaultNormalizedWeights])
    (by norm_num [defaultNormalizedWeights])
    (by norm_num [defaultNormalizedWeights])
    (by norm_num [defaultNormalizedWeights])
    (by norm_num [alignedPhoto, basePhoto])
    (by norm_num [alignedPhoto, basePhoto])
    (by norm_num [alignedPhoto, basePhoto])
    (by norm_num [alignedPhoto, basePhoto])
    (by norm_num [alignedPhoto, basePhoto])
    (by norm_num [alignedPhoto, basePhoto]) hpos).1

/-- C6 counterexample: a two-photo catalog in which the first photo's client
relevance (0.9) exceeds the catalog average (0.5).  Raising the
client-alignment weight from 1/4 to 1/2 while holding technical and
storytelling proportional (both normalized) strictly DECREASES that photo's
score, and its rank position does not move (it stays first in both
rankings), refuting the claim under either reading of composite rank. -/
theorem clientAlignment_monotonicity_counterexample :
    catalogAverage [highRelPhoto, lowRelPhoto] <
        highRelPhoto.metrics.clientRelevance ∧
      wBefore.clientAlignment < wAfter.clientAlignment ∧
      wAfter.technical * (1 - wBefore.clientAlignment) =
        wBefore.technical * (1 - wAfter.clientAlignment) ∧
      wAfter.storytelling * (1 - wBefore.clientAlignment) =
        wBefore.storytelling * (1 - wAfter.clientAlignment) ∧
      wBefore.technical + wBefore.storytelling + wBefore.clientAlignment = 1 ∧
      wAfter.technical + wAfter.storytelling + wAfter.clientAlignment = 1 ∧
      scorePhoto wAfter emptyProfile highRelPhoto <
        scorePhoto wBefore emptyProfile highRelPhoto ∧
      (buildPhotoRankings [highRelPhoto, lowRelPhoto] wBefore
          emptyProfile).map RankedEntry.photo =
        [highRelPhoto, lowRelPhoto] ∧
      (buildPhotoRankings [highRelPhoto, lowRelPhoto] wAfter
          emptyProfile).map RankedEntry.photo =
        [highRelPhoto, lowRelPhoto] := by
  norm_num [buildPhotoRankings, sortRanked, insertRanked, decorate,
    scorePhoto, compositeSubScore, facesAdjusted, tagAdjusted, shotAdjusted,
    moodAdjusted, tagOverlap, clamp01, catalogAverage, highRelPhoto,
    lowRelPhoto, emptyProfile, basePhoto, wBefore, wAfter, min_def, max_def,
    moodBonus, tagBonusScale, shotTypePenalty, facesPenalty]

/-- C6 (amended): raising the client-alignment weight while holding the
technical and storytelling weights proportional (both weight triples
normalized and non-negative) strictly increases the score of a photo whose
composite client-alignment sub-score, scaled by one minus the old
client-alignment weight, strictly exceeds the photo's weighted
technical-plus-storytelling base.  (Exceeding the catalog-average client
relevance is neither necessary nor sufficient for this.) -/
theorem clientAlignment_weight_monotonicity (w w2 : ScoringWeights)
    (pr : ClientProfile) (p : Photo)
    (hwt : 0 ≤ w.technical) (hws : 0 ≤ w.storytelling)
    (hwc : 0 ≤ w.clientAlignment)
    (hsum : w.technical + w.storytelling + w.clientAlignment = 1)
    (hwt2 : 0 ≤ w2.technical) (hws2 : 0 ≤ w2.storytelling)
    (hwc2 : 0 ≤ w2.clientAlignment)
    (hsum2 : w2.technical + w2.storytelling + w2.clientAlignment = 1)
    (hpt : w2.technical * (1 - w.clientAlignment) =
      w.technical * (1 - w2.clientAlignment))
    (hps : w2.storytelling * (1 - w.clientAlignment) =
      w.storytelling * (1 - w2.clientAlignment))
    (hinc : w.clientAlignment < w2.clientAlignment)
    (hs0 : 0 ≤ p.metrics.sharpness) (hs1 : p.metrics.sharpness ≤ 1)
    (he0 : 0 ≤ p.metrics.emotion) (he1 : p.metrics.emotion ≤ 1)
    (hthresh : w.technical * p.metrics.sharpness +
        w.storytelling * p.metrics.emotion <
      (1 - w.clientAlignment) * compositeSubScore pr p) :
    scorePhoto w pr p < scorePhoto w2 pr p := by
  have hc0 := compositeSubScore_nonneg pr p
  rw [scorePhoto_unclamped hwt hws hwc hsum hs0 hs1 he0 he1,
    scorePhoto_unclamped hwt2 hws2 hwc2 hsum2 hs0 hs1 he0 he1]
  have hbase0 : 0 ≤ w.technical * p.metrics.sharpness +
      w.storytelling * p.metrics.emotion :=
    add_nonneg (mul_nonneg hwt hs0) (mul_nonneg hws he0)
  have h1c : 0 < 1 - w.clientAlignment := by
    by_contra hle
    push_neg at hle
    nlinarith [mul_nonpos_of_nonpos_of_nonneg hle hc0]
  have hδ : 0 < w2.clientAlignment - w.clientAlignment := sub_pos.mpr hinc
  have hγ : 0 < (1 - w.clientAlignment) * compositeSubScore pr p -
      (w.technical * p.metrics.sharpness +
        w.storytelling * p.metrics.emotion) := sub_pos.mpr hthresh
  have key : (1 - w.clientAlignment) *
      ((w2.technical * p.metrics.sharpness +
          w2.storytelling * p.metrics.emotion +
          w2.clientAlignment * compositeSubScore pr p) -
        (w.technical * p.metrics.sharpness +
          w.storytelling * p.metrics.emotion +
          w.clientAlignment * compositeSubScore pr p)) =
      (w2.clientAlignment - w.clientAlignment) *
        ((1 - w.clientAlignment) * compositeSubScore pr p -
          (w.technical * p.metrics.sharpness +
            w.storytelling * p.metrics.emotion)) := by
    linear_combination p.metrics.sharpness * hpt + p.metrics.emotion * hps
  by_contra hle
  push_neg at hle
  have hmul : (1 - w.clientAlignment) *
      ((w2.technical * p.metrics.sharpness +
          w2.storytelling * p.metrics.emotion +
          w2.clientAlignment * compositeSubScore pr p) -
        (w.technical * p.metrics.sharpness +
          w.storytelling * p.metrics.emotion +
          w.clientAlignment * compositeSubScore pr p)) ≤ 0 :=
    mul_nonpos_of_nonneg_of_nonpos (le_of_lt h1c) (by linarith)
  rw [key] at hmul
  nlinarith [mul_pos hδ hγ]

/-- Witness for the amended C6 at concrete weights and photo. -/
theorem clientAlignment_weight_monotonicity_witness :
    wBefore.technical * alignedPhoto.metrics.sharpness +
        wBefore.storytelling * alignedPhoto.metrics.emotion <
      (1 - wBefore.clientAlignment) *
        compositeSubScore emptyProfile alignedPhoto ∧
      scorePhoto wBefore emptyProfile alignedPhoto <
        scorePhoto wAfter emptyProfile alignedPhoto := by
  have hthresh : wBefore.technical * alignedPhoto.metrics.sharpness +
      wBefore.storytelling * alignedPhoto.metrics.emotion <
      (1 - wBefore.clientAlignment) *
        compositeSubScore emptyProfile alignedPhoto := by
    norm_num [compositeSubScore, facesAdjusted, tagAdjusted, shotAdjusted,
      moodAdjusted, tagOverlap, clamp01, alignedPhoto, basePhoto,
      emptyProfile, wBefore, min_def, max_def, moodBonus, tagBonusScale,
      shotTypePenalty, facesPenalty]
  refine ⟨hthresh, ?_⟩
  exact clientAlignment_weight_monotonicity wBefore wAfter emptyProfile
    alignedPhoto (by norm_num [wBefore]) (by norm_num [wBefore])
    (by norm_num [wBefore]) (by norm_num [wBefore]) (by norm_num [wAfter])
    (by norm_num [wAfter]) (by norm_num [wAfter]) (by norm_num [wAfter])
    (by norm_num [wBefore, wAfter]) (by norm_num [wBefore, wAfter])
    (by norm_num [wBefore, wAfter]) (by norm_num [alignedPhoto, basePhoto])
    (by norm_num [alignedPhoto, basePhoto])
    (by norm_num [alignedPhoto, basePhoto])
    (by norm_num [alignedPhoto, basePhoto]) hthresh

/-- C8: assuming the ranked list handed to the Presentation Shell is sorted
descending by score, then for every filter state the rendered top-candidates
page is the prefix of the filtered list of length at most 12, and whenever
the filtered list is non-empty the hero is its first entry and its score is
greater than or equal to the score of every entry of the filtered view. -/
theorem hero_topCandidates_spec (ranked : List RankedEntry)
    (fs : FilterState)
    (hsorted : ranked.Pairwise (fun a b => b.score ≤ a.score)) :
    topCandidates ranked fs = (filteredRankings ranked fs).take 12 ∧
      (topCandidates ranked fs).length ≤ 12 ∧
      topCandidates ranked fs <+: filteredRankings ranked fs ∧
      (filteredRankings ranked fs ≠ [] →
        ∃ h0, hero ranked fs = some h0 ∧
          (filteredRankings ranked fs).head? = some h0 ∧
          ∀ e ∈ filteredRankings ranked fs, e.score ≤ h0.score) := by
  refine ⟨rfl, ?_, List.take_prefix _ _, ?_⟩
  · rw [topCandidates, List.length_take]
    exact min_le_left _ _
  · intro hne
    have hp : (filteredRankings ranked fs).Pairwise
        (fun a b => b.score ≤ a.score) :=
      List.Pairwise.filter _ hsorted
    obtain ⟨h0, t, hft⟩ : ∃ h0 t, filteredRankings ranked fs = h0 :: t := by
      cases hfl : filteredRankings ranked fs with
      | nil => exact absurd hfl hne
      | cons a b => exact ⟨a, b, rfl⟩
    rw [hft] at hp
    refine ⟨h0, ?_, by rw [hft]; rfl, ?_⟩
    · rw [hero, topCandidates, hft]
      rfl
    · intro e he
      rw [hft] at he
      rcases List.mem_cons.mp he with rfl | het
      · exact le_refl _
      · exact List.rel_of_pairwise_cons hp het

/-- Witness for C8 at a concrete sorted ranked list and an inactive filter
state. -/
theorem hero_topCandidates_spec_witness :
    ([⟨examplePhotoA, 3/5⟩, (⟨examplePhotoB, 1/2⟩ : RankedEntry)].Pairwise
        (fun a b => b.score ≤ a.score)) ∧
      (topCandidates [⟨examplePhotoA, 3/5⟩, ⟨examplePhotoB, 1/2⟩]
          ⟨[], [], [], "", false, ∅⟩ =
        (filteredRankings [⟨examplePhotoA, 3/5⟩, ⟨examplePhotoB, 1/2⟩]
            ⟨[], [], [], "", false, ∅⟩).take 12 ∧
        (topCandidates [⟨examplePhotoA, 3/5⟩, ⟨examplePhotoB, 1/2⟩]
            ⟨[], [], [], "", false, ∅⟩).length ≤ 12 ∧
        topCandidates [⟨examplePhotoA, 3/5⟩, ⟨examplePhotoB, 1/2⟩]
            ⟨[], [], [], "", false, ∅⟩ <+:
          filteredRankings [⟨examplePhotoA, 3/5⟩, ⟨examplePhotoB, 1/2⟩]
            ⟨[], [], [], "", false, ∅⟩ ∧
        (filteredRankings [⟨examplePhotoA, 3/5⟩, ⟨examplePhotoB, 1/2⟩]
            ⟨[], [], [], "", false, ∅⟩ ≠ [] →
          ∃ h0, hero [⟨examplePhotoA, 3/5⟩, ⟨examplePhotoB, 1/2⟩]
              ⟨[], [], [], "", false, ∅⟩ = some h0 ∧
            (filteredRankings [⟨examplePhotoA, 3/5⟩, ⟨examplePhotoB, 1/2⟩]
                ⟨[], [], [], "", false, ∅⟩).head? = some h0 ∧
            ∀ e ∈ filteredRankings [⟨examplePhotoA, 3/5⟩,
                ⟨examplePhotoB, 1/2⟩] ⟨[], [], [], "", false, ∅⟩,
              e.score ≤ h0.score)) := by
  have hsorted : ([⟨examplePhotoA, 3/5⟩,
      (⟨examplePhotoB, 1/2⟩ : RankedEntry)].Pairwise
        (fun a b => b.score ≤ a.score)) := by
    simp [List.pairwise_cons]
    norm_num
  exact ⟨hsorted, hero_topCandidates_spec _ _ hsorted⟩

/-- C9: toggling a photo id flips exactly that id's membership in the
selection set and leaves every other id unchanged, and none of the state
updates that trigger re-ranking (weight sliders, profile fields, minimum
faces, filter chips, search text, the show-selected-only switch) modifies
the selection set, so shortlist membership persists across re-ranking. -/
theorem toggleSelection_spec (selected : Finset String) (pid : String)
    (st : DashboardState) (wk : WeightKey) (v : ℚ) (pk : ProfileKey)
    (sv : String) (q : String) (b : Bool) (n : ℕ) :
    (pid ∈ toggleSelection selected pid ↔ pid ∉ selected) ∧
      (∀ other : String, other ≠ pid →
        (other ∈ toggleSelection selected pid ↔ other ∈ selected)) ∧
      (adjustWeight st wk v).selectedIds = st.selectedIds ∧
      (toggleProfileField st pk sv).selectedIds = st.selectedIds ∧
      (setMinimumFaces st n).selectedIds = st.selectedIds ∧
      (toggleShotTypeFilter st sv).selectedIds = st.selectedIds ∧
      (toggleMoodFilter st sv).selectedIds = st.selectedIds ∧
      (toggleLocationFilter st sv).selectedIds = st.selectedIds ∧
      (setTagQuery st q).selectedIds = st.selectedIds ∧
      (setShowSelectedOnly st b).selectedIds = st.selectedIds := by
  refine ⟨?_, ?_, rfl, rfl, rfl, rfl, rfl, rfl, rfl, rfl⟩
  · unfold toggleSelection
    by_cases hmem : pid ∈ selected <;> simp [hmem]
  · intro other hne
    unfold toggleSelection
    by_cases hmem : pid ∈ selected <;>
      simp [hmem, Finset.mem_erase, Finset.mem_insert, hne]

/-- Witness for C9 at concrete ids and a concrete dashboard state. -/
theorem toggleSelection_spec_witness :
    ("a" ∈ toggleSelection ∅ "a" ↔ "a" ∉ (∅ : Finset String)) ∧
      ("b" : String) ≠ "a" ∧
      ("b" ∈ toggleSelection ∅ "a" ↔ "b" ∈ (∅ : Finset String)) ∧
      (adjustWeight sampleState WeightKey.technical 55).selectedIds =
        sampleState.selectedIds := by
  have h := toggleSelection_spec ∅ "a" sampleState WeightKey.technical 55
    ProfileKey.preferredMoods "Joyful" "laughs" true 2
  exact ⟨h.1, by decide, h.2.1 "b" (by decide), h.2.2.1⟩

/-- C10: when the ranked list contains an entry for every catalog photo (the
permutation property), the Shortlist Summary fallback defaults are
unreachable: every shortlisted photo's entry lookup succeeds, the shortlist
card score is the found entry's score rather than the 1/2 default, and the
displayed average alignment is the arithmetic mean of the ranked scores of
the shortlisted photos, independent of the fallback default. -/
theorem shortlist_fallback_unreachable (photos : List Photo)
    (ranked : List RankedEntry) (selected : Finset String)
    (hfull : ∀ p ∈ photos, ∃ e ∈ ranked, e.photo.id = p.id) :
    (∀ p ∈ shortlistPhotos photos selected,
        (findEntry ranked p.id).isSome = true) ∧
      (∀ p ∈ shortlistPhotos photos selected,
        ∃ e, findEntry ranked p.id = some e ∧
          shortlistCardScore ranked p = e.score ∧
          scoreWithDefault ranked 0 p = e.score) ∧
      ∀ d : ℚ, averageAlignment ranked (shortlistPhotos photos selected) =
        if (shortlistPhotos photos selected).isEmpty then 0
        else ((shortlistPhotos photos selected).map
            (scoreWithDefault ranked d)).sum /
          ((shortlistPhotos photos selected).length : ℚ) := by
  have hsome : ∀ p ∈ shortlistPhotos photos selected,
      (findEntry ranked p.id).isSome = true := by
    intro p hp
    rcases hfull p (List.mem_filter.mp hp).1 with ⟨e, he, hid⟩
    exact List.find?_isSome.mpr ⟨e, he, by simp [hid]⟩
  have hex : ∀ p ∈ shortlistPhotos photos selected,
      ∃ e, findEntry ranked p.id = some e ∧
        shortlistCardScore ranked p = e.score ∧
        scoreWithDefault ranked 0 p = e.score := by
    intro p hp
    rcases Option.isSome_iff_exists.mp (hsome p hp) with ⟨e, he⟩
    exact ⟨e, he, by simp [shortlistCardScore, scoreWithDefault, he],
      by simp [scoreWithDefault, he]⟩
  refine ⟨hsome, hex, ?_⟩
  intro d
  by_cases hempty : (shortlistPhotos photos selected).isEmpty
  · rw [averageAlignment, if_pos hempty, if_pos hempty]
  · rw [averageAlignment, if_neg hempty, if_neg hempty]
    congr 1
    rw [foldl_add_eq_sum, zero_add]
    refine congrArg List.sum (List.map_congr_left ?_)
    intro p hp
    rcases hex p hp with ⟨e, he, _, _⟩
    simp [scoreWithDefault, he]

/-- Witness for C10 at a one-photo catalog, its ranked entry, and a
selection containing it. -/
theorem shortlist_fallback_unreachable_witness :
    (∀ p ∈ [examplePhotoA],
        ∃ e ∈ [(⟨examplePhotoA, 3/5⟩ : RankedEntry)], e.photo.id = p.id) ∧
      ∀ p ∈ shortlistPhotos [examplePhotoA] {"a"},
        (findEntry [(⟨examplePhotoA, 3/5⟩ : RankedEntry)] p.id).isSome =
          true := by
  have hfull : ∀ p ∈ [examplePhotoA],
      ∃ e ∈ [(⟨examplePhotoA, 3/5⟩ : RankedEntry)], e.photo.id = p.id := by
    intro p hp
    rw [List.mem_singleton] at hp
    subst hp
    exact ⟨⟨examplePhotoA, 3/5⟩, List.mem_singleton.mpr rfl, rfl⟩
  exact ⟨hfull,
    (shortlist_fallback_unreachable [examplePhotoA] _ {"a"} hfull).1⟩

end CaptureCurator
